import Mathlib

/-!
Verification of the configuration synchronization cache of coc-tsserver,
embedded from src/server/features/fileConfigurationManager.ts.

JavaScript objects are modelled as ordered association lists of keys to
optional values (a value of none models a property set to undefined, and a
lookup of an absent key also yields none, matching property access).
The settings store (coc.nvim workspace) and the tsserver client are external
collaborators and are modelled as function-valued parameters.  The outcomes
of the two asynchronous configure sends are oracle inputs, and the effects
of one call to ensureConfigurationOptions (resulting cache, the list of
configure requests issued, and whether the returned promise rejected) are
returned explicitly.
-/

namespace CocTsserver

/-- A JavaScript runtime value as stored in the settings store and in the
derived configuration objects. -/
inductive CVal where
  | bool : Bool → CVal
  | nat : Nat → CVal
  | str : String → CVal
deriving DecidableEq, Repr

/-- A JavaScript object: ordered key and value pairs; a value of none models
a key whose stored value is undefined. -/
abbrev Obj := List (String × Option CVal)

/-- Property access a[key]: the value of the first binding of the key, none
when the key is absent or bound to undefined. -/
def getProp : Obj → String → Option CVal
  | [], _ => none
  | (k, v) :: rest, key => if k = key then v else getProp rest key

/-- From the source, objAreEqual: iterates over Object.keys of the first
argument and compares the two property values at each such key with strict
equality; returns true when all agree. -/
def objAreEqual (a b : Obj) : Bool :=
  (a.map Prod.fst).all fun k => decide (getProp a k = getProp b k)

/-- A scoped configuration view: config.get reads one key, yielding none when
the key is unset. -/
abbrev CocConfig := String → Option CVal

/-- config.get with a default: the stored value when defined, the default
otherwise. -/
def cfgGet (config : CocConfig) (key : String) (dflt : CVal) : CVal :=
  (config key).getD dflt

/-- JavaScript logical negation: true exactly on falsy values. -/
def jsNot : CVal → Bool
  | CVal.bool b => !b
  | CVal.nat n => n == 0
  | CVal.str s => s == ""

/-- From the source, FormatOptions: raw editor indentation facts. -/
structure FormatOptions where
  tabSize : Nat
  insertSpaces : Bool
deriving DecidableEq, Repr

/-- The coc.nvim workspace collaborator: scoped settings reads (section and
resource uri to a key-value view) and the editor format options for a
document uri.  Calls of getConfiguration that pass no resource in the source
are modelled by passing the empty string. -/
structure Workspace where
  getConfiguration : String → String → CocConfig
  getFormatOptions : String → FormatOptions

/-- Modelled from the spec: the backend protocol version is a monotonically
ordered value and every capability is gated on a fixed minimum-version
threshold; the utils api module itself is not among the sources, so versions
are embedded as naturals with lt and gte the order comparisons, and the two
thresholds used here (preference support, quote-style support) as fixed
naturals with v290 below v333. -/
def v290 : Nat := 290

/-- Modelled from the spec: the quote-style capability threshold, above
[[v290]] in the version order. -/
def v333 : Nat := 333

/-- The tsserver client collaborator: path mapping and the negotiated backend
protocol version. -/
structure Client where
  toPath : String → String
  apiVersion : Nat

/-- From the source, TextDocument: uri and language id. -/
structure TextDocument where
  uri : String
  languageId : String

/-- From the source: a document is a TypeScript document when its language id
starts with the string typescript. -/
def isTypeScriptDocument (languageId : String) : Bool :=
  languageId.startsWith "typescript"

/-- From the source, getFormatOptions: expands the editor indentation facts
and the language-scoped format settings into the backend-shaped
FormatCodeSettings object, written as the ordered key list of the object
literal. -/
def getFormatOptions (ws : Workspace) (options : FormatOptions)
    (language : String) (uri : String) : Obj :=
  let config := ws.getConfiguration (language ++ ".format") uri
  [ ("tabSize", some (CVal.nat options.tabSize)),
    ("indentSize", some (CVal.nat options.tabSize)),
    ("convertTabsToSpaces", some (CVal.bool options.insertSpaces)),
    ("newLineCharacter", some (CVal.str "\n")),
    ("insertSpaceAfterCommaDelimiter", config "insertSpaceAfterCommaDelimiter"),
    ("insertSpaceAfterConstructor", config "insertSpaceAfterConstructor"),
    ("insertSpaceAfterSemicolonInForStatements", config "insertSpaceAfterSemicolonInForStatements"),
    ("insertSpaceBeforeAndAfterBinaryOperators", config "insertSpaceBeforeAndAfterBinaryOperators"),
    ("insertSpaceAfterKeywordsInControlFlowStatements", config "insertSpaceAfterKeywordsInControlFlowStatements"),
    ("insertSpaceAfterFunctionKeywordForAnonymousFunctions", config "insertSpaceAfterFunctionKeywordForAnonymousFunctions"),
    ("insertSpaceBeforeFunctionParenthesis", config "insertSpaceBeforeFunctionParenthesis"),
    ("insertSpaceAfterOpeningAndBeforeClosingNonemptyParenthesis", config "insertSpaceAfterOpeningAndBeforeClosingNonemptyParenthesis"),
    ("insertSpaceAfterOpeningAndBeforeClosingNonemptyBrackets", config "insertSpaceAfterOpeningAndBeforeClosingNonemptyBrackets"),
    ("insertSpaceAfterOpeningAndBeforeClosingEmptyBraces", config "insertSpaceAfterOpeningAndBeforeClosingEmptyBraces"),
    ("insertSpaceAfterOpeningAndBeforeClosingNonemptyBraces", config "insertSpaceAfterOpeningAndBeforeClosingNonemptyBraces"),
    ("insertSpaceAfterOpeningAndBeforeClosingTemplateStringBraces", config "insertSpaceAfterOpeningAndBeforeClosingTemplateStringBraces"),
    ("insertSpaceAfterOpeningAndBeforeClosingJsxExpressionBraces", config "insertSpaceAfterOpeningAndBeforeClosingJsxExpressionBraces"),
    ("insertSpaceAfterTypeAssertion", config "insertSpaceAfterTypeAssertion"),
    ("placeOpenBraceOnNewLineForFunctions", config "placeOpenBraceOnNewLineForFunctions"),
    ("placeOpenBraceOnNewLineForControlBlocks", config "placeOpenBraceOnNewLineForControlBlocks"),
    ("semicolons", config "semicolons") ]

/-- From the source, SuggestOptions: completion-related settings with their
defaults. -/
structure SuggestOptions where
  enabled : CVal
  names : CVal
  paths : CVal
  completeFunctionCalls : CVal
  autoImports : CVal
  includeAutomaticOptionalChainCompletions : CVal
  importStatementSuggestions : CVal
  includeCompletionsForImportStatements : CVal
  includeCompletionsWithSnippetText : CVal
  includeCompletionsWithClassMemberSnippets : CVal
  generateReturnInDocTemplate : CVal
  includeCompletionsWithObjectLiteralMethodSnippets : CVal
deriving DecidableEq, Repr

/-- From the source, getCompleteOptions: reads the language-scoped suggest
settings, each defaulting to true. -/
def getCompleteOptions (ws : Workspace) (languageId : String) : SuggestOptions :=
  let lang := if isTypeScriptDocument languageId then "typescript" else "javascript"
  let config := ws.getConfiguration (lang ++ ".suggest") ""
  { enabled := cfgGet config "enabled" (CVal.bool true),
    names := cfgGet config "names" (CVal.bool true),
    paths := cfgGet config "paths" (CVal.bool true),
    completeFunctionCalls := cfgGet config "completeFunctionCalls" (CVal.bool true),
    autoImports := cfgGet config "autoImports" (CVal.bool true),
    includeCompletionsWithObjectLiteralMethodSnippets :=
      cfgGet config "suggest.objectLiteralMethodSnippets.enabled" (CVal.bool true),
    generateReturnInDocTemplate := cfgGet config "jsdoc.generateReturns" (CVal.bool true),
    importStatementSuggestions := cfgGet config "importStatements" (CVal.bool true),
    includeCompletionsForImportStatements :=
      cfgGet config "includeCompletionsForImportStatements" (CVal.bool true),
    includeCompletionsWithSnippetText :=
      cfgGet config "includeCompletionsWithSnippetText" (CVal.bool true),
    includeCompletionsWithClassMemberSnippets :=
      cfgGet config "classMemberSnippets.enabled" (CVal.bool true),
    includeAutomaticOptionalChainCompletions :=
      cfgGet config "includeAutomaticOptionalChainCompletions" (CVal.bool true) }

/-- From the source, getQuoteStyle: the configured quote style (default
auto), forced to single below version v333 unless the user explicitly chose
a value other than auto. -/
def getQuoteStyle (client : Client) (config : CocConfig) : CVal :=
  let quoteStyle := cfgGet config "quoteStyle" (CVal.str "auto")
  if v333 ≤ client.apiVersion ∨ quoteStyle ≠ CVal.str "auto" then quoteStyle
  else CVal.str "single"

/-- From the source, getImportModuleSpecifier: the recognised values
project-relative, relative and non-relative pass through; every other stored
value, and an unset key, yield undefined. -/
def getImportModuleSpecifier (config : CocConfig) : Option CVal :=
  match config "importModuleSpecifier" with
  | some (CVal.str "project-relative") => some (CVal.str "project-relative")
  | some (CVal.str "relative") => some (CVal.str "relative")
  | some (CVal.str "non-relative") => some (CVal.str "non-relative")
  | _ => none

/-- From the source, getImportModuleSpecifierEndingPreference: minimal, index
and js pass through, everything else yields auto. -/
def getImportModuleSpecifierEndingPreference (config : CocConfig) : CVal :=
  match config "importModuleSpecifierEnding" with
  | some (CVal.str "minimal") => CVal.str "minimal"
  | some (CVal.str "index") => CVal.str "index"
  | some (CVal.str "js") => CVal.str "js"
  | _ => CVal.str "auto"

/-- From the source, getJsxAttributeCompletionStyle: braces and none pass
through, everything else yields auto. -/
def getJsxAttributeCompletionStyle (config : CocConfig) : CVal :=
  match config "jsxAttributeCompletionStyle" with
  | some (CVal.str "braces") => CVal.str "braces"
  | some (CVal.str "none") => CVal.str "none"
  | _ => CVal.str "auto"

/-- From the source, getInlayParameterNameHintsPreference: none, literals and
all pass through, everything else yields undefined. -/
def getInlayParameterNameHintsPreference (config : CocConfig) : Option CVal :=
  match config "inlayHints.parameterNames.enabled" with
  | some (CVal.str "none") => some (CVal.str "none")
  | some (CVal.str "literals") => some (CVal.str "literals")
  | some (CVal.str "all") => some (CVal.str "all")
  | _ => none

/-- From the source, getInlayHintsPreferences: the inlay-hint sub-preferences
object, in literal key order. -/
def getInlayHintsPreferences (config : CocConfig) : Obj :=
  [ ("includeInlayParameterNameHints", getInlayParameterNameHintsPreference config),
    ("includeInlayParameterNameHintsWhenArgumentMatchesName",
      some (CVal.bool (jsNot (cfgGet config "inlayHints.parameterNames.suppressWhenArgumentMatchesName" (CVal.bool true))))),
    ("includeInlayFunctionParameterTypeHints",
      some (cfgGet config "inlayHints.parameterTypes.enabled" (CVal.bool false))),
    ("includeInlayVariableTypeHints",
      some (cfgGet config "inlayHints.variableTypes.enabled" (CVal.bool false))),
    ("includeInlayPropertyDeclarationTypeHints",
      some (cfgGet config "inlayHints.propertyDeclarationTypes.enabled" (CVal.bool false))),
    ("includeInlayFunctionLikeReturnTypeHints",
      some (cfgGet config "inlayHints.functionLikeReturnTypes.enabled" (CVal.bool false))),
    ("includeInlayEnumMemberValueHints",
      some (cfgGet config "inlayHints.enumMemberValues.enabled" (CVal.bool false))) ]

/-- From the source, getPreferences: below version v290 the empty preferences
object; otherwise the backend-shaped UserPreferences object written as the
ordered key list of the object literal, ending with the spread of
[[getInlayHintsPreferences]]. -/
def getPreferences (ws : Workspace) (client : Client)
    (language : String) (uri : String) : Obj :=
  if client.apiVersion < v290 then []
  else
    let config := ws.getConfiguration language uri
    let preferencesConfig := ws.getConfiguration (language ++ ".preferences") uri
    let suggestConfig := getCompleteOptions ws language
    [ ("quotePreference", some (getQuoteStyle client preferencesConfig)),
      ("importModuleSpecifierPreference", getImportModuleSpecifier preferencesConfig),
      ("importModuleSpecifierEnding",
        some (getImportModuleSpecifierEndingPreference preferencesConfig)),
      ("jsxAttributeCompletionStyle",
        some (getJsxAttributeCompletionStyle preferencesConfig)),
      ("allowTextChangesInNewFiles", some (CVal.bool (uri.startsWith "file:"))),
      ("allowRenameOfImportPath", some (CVal.bool true)),
      ("provideRefactorNotApplicableReason", some (CVal.bool false)),
      ("providePrefixAndSuffixTextForRename",
        some (if cfgGet preferencesConfig "renameShorthandProperties" (CVal.bool true) = CVal.bool false
          then CVal.bool false
          else cfgGet preferencesConfig "useAliasesForRenames" (CVal.bool true))),
      ("generateReturnInDocTemplate", some suggestConfig.generateReturnInDocTemplate),
      ("includeCompletionsForImportStatements",
        some suggestConfig.includeCompletionsForImportStatements),
      ("includeCompletionsWithClassMemberSnippets",
        some suggestConfig.includeCompletionsWithClassMemberSnippets),
      ("includeCompletionsWithSnippetText",
        some suggestConfig.includeCompletionsWithSnippetText),
      ("includeCompletionsWithObjectLiteralMethodSnippets",
        some suggestConfig.includeCompletionsWithObjectLiteralMethodSnippets),
      ("includeAutomaticOptionalChainCompletions",
        some suggestConfig.includeAutomaticOptionalChainCompletions),
      ("useLabelDetailsInCompletionEntries", some (CVal.bool true)),
      ("allowIncompleteCompletions", some (CVal.bool true)),
      ("displayPartsForJSDoc", some (CVal.bool true)) ]
    ++ getInlayHintsPreferences config

/-- From the source, FileConfiguration: the derived snapshot, format options
plus preferences. -/
structure FileConfiguration where
  formatOptions : Obj
  preferences : Obj
deriving DecidableEq, Repr

/-- From the source, getFileOptions: derives the full snapshot for a
document, scoping settings by its language. -/
def getFileOptions (ws : Workspace) (client : Client)
    (options : FormatOptions) (document : TextDocument) : FileConfiguration :=
  let lang := if isTypeScriptDocument document.languageId then "typescript" else "javascript"
  { formatOptions := getFormatOptions ws options lang document.uri,
    preferences := getPreferences ws client lang document.uri }

/-- The cached map of the manager: document uri to the last snapshot sent,
as an ordered association list following JavaScript Map semantics. -/
abbrev CacheMap := List (String × FileConfiguration)

/-- Map.get: the value at the key, none when absent. -/
def cacheGet : CacheMap → String → Option FileConfiguration
  | [], _ => none
  | (k, v) :: rest, key => if k = key then some v else cacheGet rest key

/-- Map.set: replaces the value at an existing key in place, otherwise
appends the new binding, matching JavaScript Map insertion order. -/
def cacheSet (m : CacheMap) (key : String) (v : FileConfiguration) : CacheMap :=
  if m.any (fun p => p.1 = key) then
    m.map fun p => if p.1 = key then (key, v) else p
  else m ++ [(key, v)]

/-- Map.delete: removes the binding at the key; on an absent key the map is
unchanged and no error is raised. -/
def cacheDelete (m : CacheMap) (key : String) : CacheMap :=
  m.filter fun p => p.1 ≠ key

/-- From the source, the onDidCloseTextDocument handler installed by the
constructor: deletes the cached entry of the closed document. -/
def onDidCloseTextDocument (m : CacheMap) (uri : String) : CacheMap :=
  cacheDelete m uri

/-- From the source, reset: clears the whole cache. -/
def reset (_ : CacheMap) : CacheMap := []

/-- From the source, the ConfigureRequestArguments payload: the file path
spread together with the snapshot. -/
structure ConfigureRequestArguments where
  file : String
  formatOptions : Obj
  preferences : Obj
deriving DecidableEq, Repr

/-- Outcome of the deadline-bound configure send: it resolves with a
response-typed message, resolves with some other message type (which is also
how a cancellation surfaces when the client resolves the call early), or the
promise rejects (transport error, or a rejection-style cancellation). -/
inductive ExecOutcome where
  | response : ExecOutcome
  | otherType : ExecOutcome
  | reject : ExecOutcome
deriving DecidableEq, Repr

/-- Oracle for the two configure sends of one ensure call: whether the
best-effort send (awaited with a never-cancelled token, response ignored)
resolves, and the outcome of the deadline-bound send. -/
structure SendOutcomes where
  bestEffort : Bool
  deadline : ExecOutcome
deriving DecidableEq, Repr

/-- Observable effects of one ensureConfigurationOptions call: the cache
afterwards, the configure requests issued in order, and whether the returned
promise rejected (an exception propagated to the caller). -/
structure EnsureResult where
  cache : CacheMap
  calls : List ConfigureRequestArguments
  threw : Bool
deriving DecidableEq, Repr

/-- The configure request arguments built by ensureConfigurationOptions:
the client-mapped file path spread with the derived snapshot. -/
def configureArgs (ws : Workspace) (client : Client) (document : TextDocument)
    (insertSpaces : Bool) (tabSize : Nat) : ConfigureRequestArguments :=
  let currentOptions := getFileOptions ws client { tabSize := tabSize, insertSpaces := insertSpaces } document
  { file := client.toPath document.uri,
    formatOptions := currentOptions.formatOptions,
    preferences := currentOptions.preferences }

/-- The condition of the early return of ensureConfigurationOptions: a cached
entry exists and both of its components compare equal to the candidate under
objAreEqual. -/
def fastPath (cachedOption : Option FileConfiguration)
    (currentOptions : FileConfiguration) : Bool :=
  match cachedOption with
  | some cached =>
      objAreEqual cached.formatOptions currentOptions.formatOptions
        && objAreEqual cached.preferences currentOptions.preferences
  | none => false

/-- From the source, ensureConfigurationOptions.  When the fast path is
taken, nothing happens.  Otherwise the candidate is committed to the cache,
the best-effort send is issued and awaited outside any try block (so its
rejection propagates with the optimistic entry still cached), then the
deadline-bound send is issued inside a try block: a non-response-typed
resolution or a rejection deletes the entry. -/
def ensureConfigurationOptions (ws : Workspace) (client : Client)
    (cache : CacheMap) (document : TextDocument)
    (insertSpaces : Bool) (tabSize : Nat) (out : SendOutcomes) : EnsureResult :=
  let options : FormatOptions := { tabSize := tabSize, insertSpaces := insertSpaces }
  let cachedOption := cacheGet cache document.uri
  let currentOptions := getFileOptions ws client options document
  if fastPath cachedOption currentOptions then
    { cache := cache, calls := [], threw := false }
  else
    let cache1 := cacheSet cache document.uri currentOptions
    let args := configureArgs ws client document insertSpaces tabSize
    if out.bestEffort then
      match out.deadline with
      | ExecOutcome.response =>
          { cache := cache1, calls := [args, args], threw := false }
      | ExecOutcome.otherType =>
          { cache := cacheDelete cache1 document.uri, calls := [args, args], threw := false }
      | ExecOutcome.reject =>
          { cache := cacheDelete cache1 document.uri, calls := [args, args], threw := false }
    else
      { cache := cache1, calls := [args], threw := true }

/-- A property read of a number-typed field of a snapshot; snapshots built by
getFormatOptions always store a nat at the fields so read. -/
def cvalNat : Option CVal → Nat
  | some (CVal.nat n) => n
  | _ => 0

/-- A property read of a boolean-typed field of a snapshot; snapshots built
by getFormatOptions always store a bool at the fields so read. -/
def cvalBool : Option CVal → Bool
  | some (CVal.bool b) => b
  | _ => false

/-- The option selection of ensureConfigurationForDocument: indentation facts
from the cached snapshot when an entry exists, otherwise from the editor via
workspace.getFormatOptions. -/
def docFormatOptions (ws : Workspace) (cache : CacheMap) (uri : String) : FormatOptions :=
  match cacheGet cache uri with
  | some cached =>
      { tabSize := cvalNat (getProp cached.formatOptions "tabSize"),
        insertSpaces := cvalBool (getProp cached.formatOptions "convertTabsToSpaces") }
  | none => ws.getFormatOptions uri

/-- From the source, ensureConfigurationForDocument: selects indentation
facts per [[docFormatOptions]] and delegates to ensureConfigurationOptions. -/
def ensureConfigurationForDocument (ws : Workspace) (client : Client)
    (cache : CacheMap) (document : TextDocument) (out : SendOutcomes) : EnsureResult :=
  let opts := docFormatOptions ws cache document.uri
  ensureConfigurationOptions ws client cache document opts.insertSpaces opts.tabSize out

/-! Helper lemmas about the embedded operations. -/

theorem objAreEqual_iff (a b : Obj) :
    objAreEqual a b = true ↔ ∀ k ∈ a.map Prod.fst, getProp a k = getProp b k := by
  simp [objAreEqual]

theorem objAreEqual_refl (a : Obj) : objAreEqual a a = true :=
  (objAreEqual_iff a a).mpr fun _ _ => rfl

theorem fastPath_self (c : FileConfiguration) : fastPath (some c) c = true := by
  simp [fastPath, objAreEqual_refl]

theorem fastPath_none (c : FileConfiguration) : fastPath none c = false := rfl

theorem cacheGet_cacheSet (m : CacheMap) (key : String) (v : FileConfiguration) :
    cacheGet (cacheSet m key v) key = some v := by
  unfold cacheSet
  split
  · rename_i h
    induction m with
    | nil => simp at h
    | cons p rest ih =>
      by_cases hp : p.1 = key
      · rw [List.map_cons, if_pos hp]
        simp [cacheGet]
      · have hr : (rest.any fun p => decide (p.1 = key)) = true := by
          simp only [List.any_cons, Bool.or_eq_true, decide_eq_true_eq] at h
          rcases h with h | h
          · exact absurd h hp
          · exact h
        simp only [List.map_cons, if_neg hp]
        rw [cacheGet, if_neg hp]
        exact ih hr
  · rename_i h
    induction m with
    | nil => simp [cacheGet]
    | cons p rest ih =>
      have hp : ¬ p.1 = key := by
        intro hk
        exact h (by simp [List.any_cons, hk])
      have hr : ¬ (rest.any fun p => decide (p.1 = key)) = true := by
        intro hk
        exact h (by simp [List.any_cons, hk])
      rw [List.cons_append, cacheGet, if_neg hp]
      exact ih hr

theorem cacheGet_cacheDelete (m : CacheMap) (key : String) :
    cacheGet (cacheDelete m key) key = none := by
  induction m with
  | nil => rfl
  | cons p rest ih =>
    rw [cacheDelete, List.filter_cons]
    by_cases hp : p.1 = key
    · rw [if_neg (by simp [hp])]
      exact ih
    · rw [if_pos (by simp [hp])]
      rw [cacheGet, if_neg hp]
      exact ih

theorem cacheDelete_absent (m : CacheMap) (key : String)
    (h : cacheGet m key = none) : cacheDelete m key = m := by
  induction m with
  | nil => rfl
  | cons p rest ih =>
    rw [cacheGet] at h
    by_cases hp : p.1 = key
    · rw [if_pos hp] at h
      exact absurd h (by simp)
    · rw [if_neg hp] at h
      rw [cacheDelete, List.filter_cons, if_pos (by simp [hp])]
      rw [show List.filter (fun p => decide (p.1 ≠ key)) rest = cacheDelete rest key from rfl, ih h]

theorem ensure_fast (ws : Workspace) (client : Client) (cache : CacheMap)
    (doc : TextDocument) (ins : Bool) (tab : Nat) (out : SendOutcomes)
    (h : fastPath (cacheGet cache doc.uri)
      (getFileOptions ws client { tabSize := tab, insertSpaces := ins } doc) = true) :
    ensureConfigurationOptions ws client cache doc ins tab out
      = { cache := cache, calls := [], threw := false } := by
  simp [ensureConfigurationOptions, h]

theorem ensure_send_success (ws : Workspace) (client : Client) (cache : CacheMap)
    (doc : TextDocument) (ins : Bool) (tab : Nat) (out : SendOutcomes)
    (h : fastPath (cacheGet cache doc.uri)
      (getFileOptions ws client { tabSize := tab, insertSpaces := ins } doc) = false)
    (hbe : out.bestEffort = true) (hdl : out.deadline = ExecOutcome.response) :
    ensureConfigurationOptions ws client cache doc ins tab out
      = { cache := cacheSet cache doc.uri (getFileOptions ws client { tabSize := tab, insertSpaces := ins } doc),
          calls := [configureArgs ws client doc ins tab, configureArgs ws client doc ins tab],
          threw := false } := by
  simp [ensureConfigurationOptions, h, hbe, hdl]

theorem ensure_send_failure (ws : Workspace) (client : Client) (cache : CacheMap)
    (doc : TextDocument) (ins : Bool) (tab : Nat) (out : SendOutcomes)
    (h : fastPath (cacheGet cache doc.uri)
      (getFileOptions ws client { tabSize := tab, insertSpaces := ins } doc) = false)
    (hbe : out.bestEffort = true) (hdl : out.deadline ≠ ExecOutcome.response) :
    ensureConfigurationOptions ws client cache doc ins tab out
      = { cache := cacheDelete (cacheSet cache doc.uri (getFileOptions ws client { tabSize := tab, insertSpaces := ins } doc)) doc.uri,
          calls := [configureArgs ws client doc ins tab, configureArgs ws client doc ins tab],
          threw := false } := by
  cases hdlc : out.deadline with
  | response => exact absurd hdlc hdl
  | otherType => simp [ensureConfigurationOptions, h, hbe, hdlc]
  | reject => simp [ensureConfigurationOptions, h, hbe, hdlc]

theorem ensure_send_throw (ws : Workspace) (client : Client) (cache : CacheMap)
    (doc : TextDocument) (ins : Bool) (tab : Nat) (out : SendOutcomes)
    (h : fastPath (cacheGet cache doc.uri)
      (getFileOptions ws client { tabSize := tab, insertSpaces := ins } doc) = false)
    (hbe : out.bestEffort = false) :
    ensureConfigurationOptions ws client cache doc ins tab out
      = { cache := cacheSet cache doc.uri (getFileOptions ws client { tabSize := tab, insertSpaces := ins } doc),
          calls := [configureArgs ws client doc ins tab],
          threw := true } := by
  simp [ensureConfigurationOptions, h, hbe]

theorem ensure_calls_ne_nil (ws : Workspace) (client : Client) (cache : CacheMap)
    (doc : TextDocument) (ins : Bool) (tab : Nat) (out : SendOutcomes)
    (h : fastPath (cacheGet cache doc.uri)
      (getFileOptions ws client { tabSize := tab, insertSpaces := ins } doc) = false) :
    (ensureConfigurationOptions ws client cache doc ins tab out).calls ≠ [] := by
  rcases out with ⟨be, dl⟩
  cases be <;> cases dl <;> simp [ensureConfigurationOptions, h]

theorem ensure_calls_eq (ws : Workspace) (client : Client) (cache : CacheMap)
    (doc : TextDocument) (ins : Bool) (tab : Nat) (out : SendOutcomes) :
    ∀ a ∈ (ensureConfigurationOptions ws client cache doc ins tab out).calls,
      a = configureArgs ws client doc ins tab := by
  intro a ha
  by_cases h : fastPath (cacheGet cache doc.uri)
      (getFileOptions ws client { tabSize := tab, insertSpaces := ins } doc) = true
  · rw [ensure_fast ws client cache doc ins tab out h] at ha
    simp at ha
  · have h' : fastPath (cacheGet cache doc.uri)
        (getFileOptions ws client { tabSize := tab, insertSpaces := ins } doc) = false :=
      Bool.eq_false_iff.mpr h
    rcases out with ⟨be, dl⟩
    cases be
    · rw [ensure_send_throw ws client cache doc ins tab ⟨false, dl⟩ h' rfl] at ha
      simpa using ha
    · cases dl
      · rw [ensure_send_success ws client cache doc ins tab ⟨true, ExecOutcome.response⟩ h' rfl rfl] at ha
        rcases List.mem_cons.mp ha with h1 | h1
        · exact h1
        · simpa using h1
      · rw [ensure_send_failure ws client cache doc ins tab ⟨true, ExecOutcome.otherType⟩ h' rfl (by simp)] at ha
        rcases List.mem_cons.mp ha with h1 | h1
        · exact h1
        · simpa using h1
      · rw [ensure_send_failure ws client cache doc ins tab ⟨true, ExecOutcome.reject⟩ h' rfl (by simp)] at ha
        rcases List.mem_cons.mp ha with h1 | h1
        · exact h1
        · simpa using h1

/-! Concrete fixtures used by witnesses and counterexamples. -/

/-- Fixture: a settings store with every key unset and fixed editor format
options. -/
def wsTest : Workspace :=
  { getConfiguration := fun _ _ _ => none,
    getFormatOptions := fun _ => { tabSize := 4, insertSpaces := false } }

/-- Fixture: a client with identity path mapping on a recent backend
version. -/
def clientTest : Client := { toPath := fun s => s, apiVersion := 400 }

/-- Fixture: a client on a backend predating preference support. -/
def clientOld : Client := { toPath := fun s => s, apiVersion := 206 }

/-- Fixture: a TypeScript document. -/
def docTest : TextDocument := { uri := "file:a.ts", languageId := "typescript" }

/-- Fixture: a preferences view with quote style double. -/
def configDouble : CocConfig :=
  fun k => if k = "quoteStyle" then some (CVal.str "double") else none

/-- Fixture: a preferences view with import specifier style shortest. -/
def configShortest : CocConfig :=
  fun k => if k = "importModuleSpecifier" then some (CVal.str "shortest") else none

/-- Fixture: a preferences view with import specifier style relative. -/
def configRelative : CocConfig :=
  fun k => if k = "importModuleSpecifier" then some (CVal.str "relative") else none

/-- Fixture: the snapshot derived for the test document at tabSize 2. -/
def snapTest : FileConfiguration :=
  getFileOptions wsTest clientTest { tabSize := 2, insertSpaces := true } docTest

/-- Fixture: a cache holding the test snapshot for the test document. -/
def cacheTest : CacheMap := [(docTest.uri, snapTest)]

/-! The claims. -/

/-- C1: starting from a document with no cache entry, two immediately
successive ensureConfigurationOptions calls on the same settings store with
the same format options issue exactly one configure send sequence (the
best-effort send and the deadline-bound send, with identical payloads),
namely in the first call, provided that send is acknowledged with a
response; the second call finds a cache entry structurally equal to the
candidate snapshot and returns success immediately with no configure call
and no cache mutation. -/
theorem ensure_idempotent (ws : Workspace) (client : Client) (cache : CacheMap)
    (doc : TextDocument) (ins : Bool) (tab : Nat) (out1 out2 : SendOutcomes)
    (hmiss : cacheGet cache doc.uri = none)
    (hbe : out1.bestEffort = true) (hok : out1.deadline = ExecOutcome.response) :
    (ensureConfigurationOptions ws client cache doc ins tab out1).calls
      = [configureArgs ws client doc ins tab, configureArgs ws client doc ins tab]
    ∧ (ensureConfigurationOptions ws client cache doc ins tab out1).threw = false
    ∧ cacheGet (ensureConfigurationOptions ws client cache doc ins tab out1).cache doc.uri
        = some (getFileOptions ws client { tabSize := tab, insertSpaces := ins } doc)
    ∧ ensureConfigurationOptions ws client
        (ensureConfigurationOptions ws client cache doc ins tab out1).cache doc ins tab out2
      = { cache := (ensureConfigurationOptions ws client cache doc ins tab out1).cache,
          calls := [], threw := false } := by
  have hfast : fastPath (cacheGet cache doc.uri)
      (getFileOptions ws client { tabSize := tab, insertSpaces := ins } doc) = false := by
    rw [hmiss]; rfl
  have h1 := ensure_send_success ws client cache doc ins tab out1 hfast hbe hok
  have hget : cacheGet (ensureConfigurationOptions ws client cache doc ins tab out1).cache doc.uri
      = some (getFileOptions ws client { tabSize := tab, insertSpaces := ins } doc) := by
    rw [h1]
    exact cacheGet_cacheSet cache doc.uri _
  refine ⟨by rw [h1], by rw [h1], hget, ?_⟩
  exact ensure_fast ws client _ doc ins tab out2 (by rw [hget]; exact fastPath_self _)

/-- C1 witness: two concrete successive calls at tabSize 2 on the empty
cache; the second is the fast path. -/
theorem ensure_idempotent_witness :
    ensureConfigurationOptions wsTest clientTest
        (ensureConfigurationOptions wsTest clientTest [] docTest true 2
          { bestEffort := true, deadline := ExecOutcome.response }).cache
        docTest true 2 { bestEffort := true, deadline := ExecOutcome.response }
      = { cache := (ensureConfigurationOptions wsTest clientTest [] docTest true 2
            { bestEffort := true, deadline := ExecOutcome.response }).cache,
          calls := [], threw := false } :=
  (ensure_idempotent wsTest clientTest [] docTest true 2
    { bestEffort := true, deadline := ExecOutcome.response }
    { bestEffort := true, deadline := ExecOutcome.response } rfl rfl rfl).2.2.2

/-- C2 counterexample: objAreEqual compares only over the keys of its first
argument, so the empty object compares equal to an object with a defined key
x while the comparison with arguments swapped yields false: the flattened
key set of both objects is not used and the comparison is not symmetric. -/
theorem objAreEqual_asymmetric_cex :
    objAreEqual [] [("x", some (CVal.nat 1))] = true
    ∧ objAreEqual [("x", some (CVal.nat 1))] [] = false :=
  ⟨rfl, rfl⟩

/-- C2 amended: the diffing equality is field-wise over the keys of the
first (cached) object only: the two objects compare equal iff every key of
the first object carries the same value (with undefined for an absent key)
in the second, regardless of key order; hence a key with a defined value in
the first object but absent or undefined in the second makes them compare
unequal, but a key defined only in the second object is not detected, and
the comparison is guaranteed symmetric only when the two objects have the
same key set. -/
theorem objAreEqual_spec (a b : Obj) :
    (objAreEqual a b = true ↔ ∀ k ∈ a.map Prod.fst, getProp a k = getProp b k)
    ∧ ((∀ k ∈ a.map Prod.fst, k ∈ b.map Prod.fst) →
       (∀ k ∈ b.map Prod.fst, k ∈ a.map Prod.fst) →
        objAreEqual a b = objAreEqual b a) := by
  refine ⟨objAreEqual_iff a b, fun hab hba => ?_⟩
  cases h1 : objAreEqual a b with
  | true =>
    have h2 : objAreEqual b a = true :=
      (objAreEqual_iff b a).mpr fun k hk => ((objAreEqual_iff a b).mp h1 k (hba k hk)).symm
    rw [h2]
  | false =>
    cases h2 : objAreEqual b a with
    | false => rfl
    | true =>
      have h3 : objAreEqual a b = true :=
        (objAreEqual_iff a b).mpr fun k hk => ((objAreEqual_iff b a).mp h2 k (hab k hk)).symm
      rw [h1] at h3
      exact absurd h3 (by simp)

/-- C2 amended witness: two objects with the same two keys in different
order compare the same way in both directions. -/
theorem objAreEqual_spec_witness :
    objAreEqual [("x", some (CVal.nat 1)), ("y", none)] [("y", none), ("x", some (CVal.nat 1))]
      = objAreEqual [("y", none), ("x", some (CVal.nat 1))] [("x", some (CVal.nat 1)), ("y", none)] :=
  (objAreEqual_spec [("x", some (CVal.nat 1)), ("y", none)]
    [("y", none), ("x", some (CVal.nat 1))]).2 (by decide) (by decide)

/-- C3: when an ensure call that actually issued its configure sends has the
deadline-bound send end in a non-success outcome (a non-response-typed
resolution, which also covers a cancellation resolved early, or a
rejection), the cache entry of the document is evicted, and the next ensure
call for that document issues configure calls even with identical inputs. -/
theorem ensure_failure_evicts (ws : Workspace) (client : Client) (cache : CacheMap)
    (doc : TextDocument) (ins : Bool) (tab : Nat) (out1 out2 : SendOutcomes)
    (hbe : out1.bestEffort = true) (hfail : out1.deadline ≠ ExecOutcome.response)
    (hsend : (ensureConfigurationOptions ws client cache doc ins tab out1).calls ≠ []) :
    cacheGet (ensureConfigurationOptions ws client cache doc ins tab out1).cache doc.uri = none
    ∧ (ensureConfigurationOptions ws client
        (ensureConfigurationOptions ws client cache doc ins tab out1).cache
        doc ins tab out2).calls ≠ [] := by
  have hfast : fastPath (cacheGet cache doc.uri)
      (getFileOptions ws client { tabSize := tab, insertSpaces := ins } doc) = false := by
    rcases Bool.eq_false_or_eq_true (fastPath (cacheGet cache doc.uri)
      (getFileOptions ws client { tabSize := tab, insertSpaces := ins } doc)) with h | h
    · exfalso
      apply hsend
      rw [ensure_fast ws client cache doc ins tab out1 h]
    · exact h
  have h1 := ensure_send_failure ws client cache doc ins tab out1 hfast hbe hfail
  have hget : cacheGet (ensureConfigurationOptions ws client cache doc ins tab out1).cache
      doc.uri = none := by
    rw [h1]
    exact cacheGet_cacheDelete _ doc.uri
  refine ⟨hget, ?_⟩
  apply ensure_calls_ne_nil
  rw [hget]
  rfl

/-- C3 witness: a rejected deadline-bound send on a concrete call leaves no
entry for the document. -/
theorem ensure_failure_evicts_witness :
    cacheGet (ensureConfigurationOptions wsTest clientTest [] docTest true 2
      { bestEffort := true, deadline := ExecOutcome.reject }).cache docTest.uri = none :=
  (ensure_failure_evicts wsTest clientTest [] docTest true 2
    { bestEffort := true, deadline := ExecOutcome.reject }
    { bestEffort := true, deadline := ExecOutcome.response } rfl (by decide) (by decide)).1

/-- C4 counterexample: when the best-effort configure send, which is awaited
outside the try block, rejects, ensureConfigurationOptions propagates the
exception to its caller, and the optimistically committed entry stays in the
cache. -/
theorem ensure_throws_cex :
    (ensureConfigurationOptions wsTest clientTest [] docTest true 2
      { bestEffort := false, deadline := ExecOutcome.response }).threw = true
    ∧ cacheGet (ensureConfigurationOptions wsTest clientTest [] docTest true 2
        { bestEffort := false, deadline := ExecOutcome.response }).cache docTest.uri
      = some (getFileOptions wsTest clientTest { tabSize := 2, insertSpaces := true } docTest) :=
  ⟨rfl, rfl⟩

/-- C4 amended: every failure of the deadline-bound configure send is
recovered locally, the returned promise resolving rather than rejecting; an
exception propagates to the caller exactly when the best-effort send
rejects. -/
theorem ensure_throw_spec (ws : Workspace) (client : Client) (cache : CacheMap)
    (doc : TextDocument) (ins : Bool) (tab : Nat) (out : SendOutcomes) :
    (out.bestEffort = true →
      (ensureConfigurationOptions ws client cache doc ins tab out).threw = false)
    ∧ ((ensureConfigurationOptions ws client cache doc ins tab out).threw = true →
        out.bestEffort = false) := by
  by_cases hfp : fastPath (cacheGet cache doc.uri)
      (getFileOptions ws client { tabSize := tab, insertSpaces := ins } doc) = true
  · rw [ensure_fast ws client cache doc ins tab out hfp]
    exact ⟨fun _ => rfl, fun h => absurd h (by simp)⟩
  · have hfp' : fastPath (cacheGet cache doc.uri)
        (getFileOptions ws client { tabSize := tab, insertSpaces := ins } doc) = false :=
      Bool.eq_false_iff.mpr hfp
    rcases out with ⟨be, dl⟩
    cases be
    · rw [ensure_send_throw ws client cache doc ins tab ⟨false, dl⟩ hfp' rfl]
      exact ⟨fun h => absurd h (by simp), fun _ => rfl⟩
    · cases dl
      · rw [ensure_send_success ws client cache doc ins tab
          ⟨true, ExecOutcome.response⟩ hfp' rfl rfl]
        exact ⟨fun _ => rfl, fun h => absurd h (by simp)⟩
      · rw [ensure_send_failure ws client cache doc ins tab
          ⟨true, ExecOutcome.otherType⟩ hfp' rfl (by simp)]
        exact ⟨fun _ => rfl, fun h => absurd h (by simp)⟩
      · rw [ensure_send_failure ws client cache doc ins tab
          ⟨true, ExecOutcome.reject⟩ hfp' rfl (by simp)]
        exact ⟨fun _ => rfl, fun h => absurd h (by simp)⟩

/-- C4 amended witness: with a resolving best-effort send and a rejecting
deadline-bound send, the promise resolves. -/
theorem ensure_throw_spec_witness :
    (ensureConfigurationOptions wsTest clientTest [] docTest true 2
      { bestEffort := true, deadline := ExecOutcome.reject }).threw = false :=
  (ensure_throw_spec wsTest clientTest [] docTest true 2
    { bestEffort := true, deadline := ExecOutcome.reject }).1 rfl

/-- C5: for every language and document uri, when the backend api version is
below the preference-support threshold v290, getPreferences returns the
empty preferences object, never a partially populated one. -/
theorem getPreferences_empty_below_v290 (ws : Workspace) (client : Client)
    (language uri : String) (h : client.apiVersion < v290) :
    getPreferences ws client language uri = [] := by
  unfold getPreferences
  rw [if_pos h]

/-- C5 witness: a backend on version 206, below the threshold, yields empty
preferences for a TypeScript document uri. -/
theorem getPreferences_empty_below_v290_witness :
    clientOld.apiVersion < v290
    ∧ getPreferences wsTest clientOld "typescript" "file:a.ts" = [] :=
  ⟨by decide,
   getPreferences_empty_below_v290 wsTest clientOld "typescript" "file:a.ts" (by decide)⟩

/-- C6: deleting the cache entry on document close is idempotent: deleting
an absent entry (also for a document never put) is a no-op yielding the
unchanged cache and raising no error, a second close changes nothing, the
entry is absent afterwards, and the next ensure call for the reopened
document issues configure calls even with unchanged inputs. -/
theorem close_invalidate_spec (cache : CacheMap) (uri : String) (ws : Workspace)
    (client : Client) (languageId : String) (ins : Bool) (tab : Nat) (out : SendOutcomes) :
    (cacheGet cache uri = none → onDidCloseTextDocument cache uri = cache)
    ∧ cacheGet (onDidCloseTextDocument cache uri) uri = none
    ∧ onDidCloseTextDocument (onDidCloseTextDocument cache uri) uri
        = onDidCloseTextDocument cache uri
    ∧ (ensureConfigurationOptions ws client (onDidCloseTextDocument cache uri)
        { uri := uri, languageId := languageId } ins tab out).calls ≠ [] := by
  have habs : cacheGet (onDidCloseTextDocument cache uri) uri = none :=
    cacheGet_cacheDelete cache uri
  refine ⟨fun h => cacheDelete_absent cache uri h, habs,
    cacheDelete_absent _ uri habs, ?_⟩
  apply ensure_calls_ne_nil
  have hu : cacheGet (onDidCloseTextDocument cache uri)
      ({ uri := uri, languageId := languageId } : TextDocument).uri = none := habs
  rw [hu]
  rfl

/-- C6 witness: invalidating a never-put document on the empty cache is a
no-op. -/
theorem close_invalidate_spec_witness :
    onDidCloseTextDocument [] "file:a.ts" = [] :=
  (close_invalidate_spec [] "file:a.ts" wsTest clientTest "typescript" true 2
    { bestEffort := true, deadline := ExecOutcome.response }).1 rfl

/-- C7: getQuoteStyle returns the configured quote style (defaulting to
auto) whenever the api version is at least v333 or the user explicitly chose
a value other than auto; when the version is below v333 and the value is
auto or unset, it returns single. -/
theorem getQuoteStyle_spec (client : Client) (config : CocConfig) :
    (v333 ≤ client.apiVersion →
      getQuoteStyle client config = cfgGet config "quoteStyle" (CVal.str "auto"))
    ∧ (∀ s, config "quoteStyle" = some s → s ≠ CVal.str "auto" →
        getQuoteStyle client config = s)
    ∧ (client.apiVersion < v333 →
        config "quoteStyle" = none ∨ config "quoteStyle" = some (CVal.str "auto") →
        getQuoteStyle client config = CVal.str "single") := by
  simp only [getQuoteStyle]
  refine ⟨fun h => ?_, fun s hs hne => ?_, fun hlt hcase => ?_⟩
  · rw [if_pos (Or.inl h)]
  · have hq : cfgGet config "quoteStyle" (CVal.str "auto") = s := by
      simp [cfgGet, hs]
    have hne' : cfgGet config "quoteStyle" (CVal.str "auto") ≠ CVal.str "auto" := by
      rw [hq]; exact hne
    rw [if_pos (Or.inr hne')]
    exact hq
  · have hauto : cfgGet config "quoteStyle" (CVal.str "auto") = CVal.str "auto" := by
      rcases hcase with h | h <;> simp [cfgGet, h]
    have hcond : ¬ (v333 ≤ client.apiVersion
        ∨ cfgGet config "quoteStyle" (CVal.str "auto") ≠ CVal.str "auto") := by
      intro hc
      rcases hc with hc | hc
      · exact absurd hc (not_le.mpr hlt)
      · rw [hauto] at hc
        exact hc rfl
    rw [if_neg hcond]

/-- C7 witness: on a backend below v333 an explicit double is kept while an
unset value yields single. -/
theorem getQuoteStyle_spec_witness :
    getQuoteStyle clientOld configDouble = CVal.str "double"
    ∧ getQuoteStyle clientOld (fun _ => none) = CVal.str "single" :=
  ⟨(getQuoteStyle_spec clientOld configDouble).2.1 (CVal.str "double") rfl (by decide),
   (getQuoteStyle_spec clientOld (fun _ => none)).2.2 (by decide) (Or.inl rfl)⟩

/-- C8: the derived snapshot copies the editor tabSize verbatim into both
the backend tabSize and indentSize fields and insertSpaces verbatim into
convertTabsToSpaces, and every configure payload issued by
ensureConfigurationOptions carries exactly those values. -/
theorem getFormatOptions_copies_indentation (ws : Workspace) (client : Client)
    (opts : FormatOptions) (language uri : String) (cache : CacheMap)
    (doc : TextDocument) (out : SendOutcomes) :
    getProp (getFormatOptions ws opts language uri) "tabSize" = some (CVal.nat opts.tabSize)
    ∧ getProp (getFormatOptions ws opts language uri) "indentSize" = some (CVal.nat opts.tabSize)
    ∧ getProp (getFormatOptions ws opts language uri) "convertTabsToSpaces"
        = some (CVal.bool opts.insertSpaces)
    ∧ ∀ a ∈ (ensureConfigurationOptions ws client cache doc
          opts.insertSpaces opts.tabSize out).calls,
        getProp a.formatOptions "tabSize" = some (CVal.nat opts.tabSize)
        ∧ getProp a.formatOptions "indentSize" = some (CVal.nat opts.tabSize)
        ∧ getProp a.formatOptions "convertTabsToSpaces" = some (CVal.bool opts.insertSpaces) := by
  refine ⟨rfl, rfl, rfl, fun a ha => ?_⟩
  rw [ensure_calls_eq ws client cache doc opts.insertSpaces opts.tabSize out a ha]
  exact ⟨rfl, rfl, rfl⟩

/-- C8 witness: ensure with tabSize 2 and insertSpaces true issues a payload
carrying tabSize 2, indentSize 2 and convertTabsToSpaces true. -/
theorem getFormatOptions_copies_indentation_witness :
    getProp (configureArgs wsTest clientTest docTest true 2).formatOptions "tabSize"
      = some (CVal.nat 2)
    ∧ getProp (configureArgs wsTest clientTest docTest true 2).formatOptions "indentSize"
      = some (CVal.nat 2)
    ∧ getProp (configureArgs wsTest clientTest docTest true 2).formatOptions "convertTabsToSpaces"
      = some (CVal.bool true) :=
  (getFormatOptions_copies_indentation wsTest clientTest
    { tabSize := 2, insertSpaces := true } "typescript" docTest.uri [] docTest
    { bestEffort := true, deadline := ExecOutcome.response }).2.2.2
    (configureArgs wsTest clientTest docTest true 2)
    (List.mem_cons_self _ _)

/-- C9 counterexample: the configured value shortest does not pass through:
getImportModuleSpecifier yields undefined for it, so a configured value may
yield undefined. -/
theorem getImportModuleSpecifier_shortest_cex :
    getImportModuleSpecifier configShortest = none
    ∧ getImportModuleSpecifier configShortest ≠ some (CVal.str "shortest") :=
  ⟨rfl, by decide⟩

/-- C9 amended: the import-specifier style preference passes the configured
values project-relative, relative and non-relative through to the backend
(the derived preferences object carries the result at the
importModuleSpecifierPreference key); the value shortest, any other
unrecognised value, and an unset value all yield undefined, meaning let the
backend choose. -/
theorem getImportModuleSpecifier_spec (ws : Workspace) (client : Client)
    (config : CocConfig) (language uri : String) :
    (∀ s, s = "project-relative" ∨ s = "relative" ∨ s = "non-relative" →
      config "importModuleSpecifier" = some (CVal.str s) →
      getImportModuleSpecifier config = some (CVal.str s))
    ∧ (config "importModuleSpecifier" = some (CVal.str "shortest") →
        getImportModuleSpecifier config = none)
    ∧ (config "importModuleSpecifier" = none →
        getImportModuleSpecifier config = none)
    ∧ (¬ client.apiVersion < v290 →
        getProp (getPreferences ws client language uri) "importModuleSpecifierPreference"
          = getImportModuleSpecifier (ws.getConfiguration (language ++ ".preferences") uri)) := by
  refine ⟨fun s hs hc => ?_, fun hc => ?_, fun hc => ?_, fun h => ?_⟩
  · rcases hs with h | h | h <;> subst h <;> simp [getImportModuleSpecifier, hc]
  · simp [getImportModuleSpecifier, hc]
  · simp [getImportModuleSpecifier, hc]
  · unfold getPreferences
    rw [if_neg h]
    rfl

/-- C9 amended witness: relative passes through while shortest yields
undefined. -/
theorem getImportModuleSpecifier_spec_witness :
    getImportModuleSpecifier configRelative = some (CVal.str "relative")
    ∧ getImportModuleSpecifier configShortest = none :=
  ⟨(getImportModuleSpecifier_spec wsTest clientTest configRelative "typescript" "file:a.ts").1
      "relative" (Or.inr (Or.inl rfl)) rfl,
   (getImportModuleSpecifier_spec wsTest clientTest configShortest "typescript" "file:a.ts").2.1
      rfl⟩

/-- C10: when a cache entry exists for the document,
ensureConfigurationForDocument derives its format options from the cached
snapshot (tabSize from the cached tabSize, insertSpaces from the cached
convertTabsToSpaces) and its result is independent of the editor format
options; the editor format options are read exactly when no entry exists. -/
theorem ensureForDocument_options_source (ws : Workspace) (f : String → FormatOptions)
    (client : Client) (cache : CacheMap) (doc : TextDocument) (out : SendOutcomes) :
    (∀ c, cacheGet cache doc.uri = some c →
      docFormatOptions ws cache doc.uri
        = { tabSize := cvalNat (getProp c.formatOptions "tabSize"),
            insertSpaces := cvalBool (getProp c.formatOptions "convertTabsToSpaces") }
      ∧ ensureConfigurationForDocument { ws with getFormatOptions := f } client cache doc out
          = ensureConfigurationForDocument ws client cache doc out)
    ∧ (cacheGet cache doc.uri = none →
        docFormatOptions ws cache doc.uri = ws.getFormatOptions doc.uri) := by
  constructor
  · intro c hc
    have hd : docFormatOptions ws cache doc.uri
        = { tabSize := cvalNat (getProp c.formatOptions "tabSize"),
            insertSpaces := cvalBool (getProp c.formatOptions "convertTabsToSpaces") } := by
      unfold docFormatOptions
      rw [hc]
    have hdf : docFormatOptions { ws with getFormatOptions := f } cache doc.uri
        = { tabSize := cvalNat (getProp c.formatOptions "tabSize"),
            insertSpaces := cvalBool (getProp c.formatOptions "convertTabsToSpaces") } := by
      unfold docFormatOptions
      rw [hc]
    refine ⟨hd, ?_⟩
    simp only [ensureConfigurationForDocument]
    rw [hd, hdf]
    rfl
  · intro hc
    unfold docFormatOptions
    rw [hc]

/-- C10 witness: with a cached entry at tabSize 2 the derived format options
come from the snapshot fields. -/
theorem ensureForDocument_options_source_witness :
    docFormatOptions wsTest cacheTest docTest.uri
      = { tabSize := cvalNat (getProp snapTest.formatOptions "tabSize"),
          insertSpaces := cvalBool (getProp snapTest.formatOptions "convertTabsToSpaces") } :=
  ((ensureForDocument_options_source wsTest (fun _ => { tabSize := 8, insertSpaces := false })
      clientTest cacheTest docTest
      { bestEffort := true, deadline := ExecOutcome.response }).1 snapTest rfl).1

end CocTsserver
